import Mathlib

/-!
Verification of the line-oriented text-scanning core of the
`research_utilities` repository, as implemented in `g16/orbital.py` and
`qm4d/orbital.py`.

Modelling conventions (a shallow embedding of the Python code):

* A text source is a `List String` of its lines, without trailing newline
  characters.  Python's `f.readline()` returns the head of the remaining
  suffix (`''` at end of stream becomes `none`); every `f.seek(f.tell() -
  len(line))` in the source un-reads exactly the line just read, so a
  cursor is represented by the remaining suffix of lines, and rewinding
  keeps the boundary line at the head of the returned suffix.  Byte
  offsets recorded for diagnostics (`f.tell()` at the start of a search)
  become line indices, carried as an inert `start : Nat` parameter.
* Python floats are modelled as exact rationals (`ℚ`); `float(tok)`
  becomes `parse_float`, which accepts the decimal forms
  `[+|-] digits [. digits]` that appear in the scanned outputs.
* `raise` becomes an `Except PyErr` error value.  `QM4D_Output_No_Results_Found`
  keeps its payload (file name, search-start position, message); all other
  exceptions are modelled by their message string.
* String helpers (`strip`, `split`, `replace`, `startswith`, `in`) are
  implemented structurally over `List Char` so that every concrete run of
  the embedded code can be evaluated by the kernel.
-/

/-! ### Python string primitives -/

/-- Whitespace characters recognised by Python's default `str.strip` /
`str.split` for the line content that occurs in these log files. -/
def py_ws (c : Char) : Bool :=
  c == ' ' || c == '\t' || c == '\n' || c == '\r'

/-- `str.strip()`: remove leading and trailing whitespace. -/
def py_strip (s : String) : String :=
  String.mk (((s.data.dropWhile py_ws).reverse.dropWhile py_ws).reverse)

/-- Does the character list `l` start with the pattern `pat`? -/
def starts_chars : List Char → List Char → Bool
  | [], _ => true
  | _ :: _, [] => false
  | p :: ps, c :: cs => p == c && starts_chars ps cs

/-- `s.startswith(pat)` on Python strings. -/
def py_starts (s pat : String) : Bool :=
  starts_chars pat.data s.data

/-- `pat in s` (substring containment) on Python strings. -/
def contains_chars (pat : List Char) : List Char → Bool
  | [] => starts_chars pat []
  | c :: cs => starts_chars pat (c :: cs) || contains_chars pat cs

/-- `pat in s` on Python strings. -/
def py_in (pat s : String) : Bool :=
  contains_chars pat.data s.data

/-- If `l` starts with `pat`, return the rest of `l` after the pattern. -/
def strip_pre_chars : List Char → List Char → Option (List Char)
  | [], l => some l
  | _ :: _, [] => none
  | p :: ps, c :: cs => if p == c then strip_pre_chars ps cs else none

/-- Worker for `py_replace`; the fuel argument (`s.length` at the top
call) only makes the recursion structural — each step consumes at least
one character of the scanned list when the pattern is nonempty, so the
initial fuel is never exhausted for the nonempty patterns used here. -/
def replace_chars (pat rep : List Char) : Nat → List Char → List Char
  | _, [] => []
  | 0, l => l
  | fuel + 1, c :: cs =>
    match strip_pre_chars pat (c :: cs) with
    | some rest => rep ++ replace_chars pat rep fuel rest
    | none => c :: replace_chars pat rep fuel cs

/-- `s.replace(pat, rep)`: replace every occurrence of `pat` in `s`. -/
def py_replace (s pat rep : String) : String :=
  String.mk (replace_chars pat.data rep.data s.data.length s.data)

/-- Worker for `py_split`: split on runs of whitespace, accumulating the
current (reversed) token. -/
def split_ws_chars : List Char → List Char → List (List Char)
  | [], cur => if cur.isEmpty then [] else [cur.reverse]
  | c :: cs, cur =>
    if py_ws c then
      if cur.isEmpty then split_ws_chars cs [] else cur.reverse :: split_ws_chars cs []
    else split_ws_chars cs (c :: cur)

/-- `s.split()`: whitespace-separated tokens, empty tokens discarded. -/
def py_split (s : String) : List String :=
  (split_ws_chars s.data []).map String.mk

/-! ### Decimal number parsing (`float(tok)`) -/

/-- Parse a run of decimal digits, most significant first.  `none` if a
non-digit character occurs. -/
def dig_go : List Char → Nat → Option Nat
  | [], acc => some acc
  | c :: cs, acc =>
    if c.isDigit then dig_go cs (acc * 10 + (c.toNat - 48)) else none

/-- Split a character list at the first `'.'`; `none` in the second
component when there is no dot. -/
def split_dot : List Char → List Char × Option (List Char)
  | [] => ([], none)
  | c :: t =>
    if c == '.' then ([], some t)
    else
      let (a, b) := split_dot t
      (c :: a, b)

/-- `float(tok)` for the decimal token forms `[+|-] digits [. digits]`
found in the scanned output files; the value is the exact rational. -/
def parse_float (s : String) : Option ℚ :=
  let (sgn, body) : Int × List Char :=
    match s.data with
    | '-' :: t => (-1, t)
    | '+' :: t => (1, t)
    | t => (1, t)
  let (ip, fp) := split_dot body
  match dig_go ip 0 with
  | none => none
  | some iv =>
    match fp with
    | none =>
      if ip.isEmpty then none
      else some (mkRat (sgn * iv) 1)
    | some fc =>
      match dig_go fc 0 with
      | none => none
      | some fv =>
        if ip.isEmpty && fc.isEmpty then none
        else some (mkRat (sgn * (iv * 10 ^ fc.length + fv)) (10 ^ fc.length))

/-- Parse every token of a list as a float (`np.array(tokens, dtype=float)`);
`none` if any token fails. -/
def parse_floats : List String → Option (List ℚ)
  | [] => some []
  | t :: ts =>
    match parse_float t, parse_floats ts with
    | some x, some xs => some (x :: xs)
    | _, _ => none

/-! ### Errors and the line cursor -/

/-- Python exceptions raised by the scanned modules.
`noResults` is `QM4D_Output_No_Results_Found` with its payload
(output-file name, search-start position, message); every other exception
is modelled by its message. -/
inductive PyErr where
  | noResults (qm4d_out : String) (start : Nat) (message : String)
  | exn (message : String)
deriving DecidableEq

/-- `f.readline()` on the remaining suffix of lines: `none` is Python's
falsy `''` at end of stream. -/
def read_line (rest : List String) : Option String :=
  rest.head?

/-- Advance the cursor past one line (a `readline` whose result is
discarded); at end of stream the cursor does not move. -/
def adv : List String → List String
  | [] => []
  | _ :: t => t

/-! ### `g16/orbital.py` -/

/-- `_is_degenerate(orb1, orb2)`: `abs(orb1 - orb2) <= 1e-4`.  Stated by
integer cross-multiplication over the exact rationals so that the test is
kernel-evaluable; `is_degenerate_iff` below proves it equal to
`|orb1 - orb2| ≤ 1/10000`. -/
def is_degenerate (orb1 orb2 : ℚ) : Bool :=
  (orb1.num * (orb2.den : Int) - orb2.num * (orb1.den : Int)).natAbs * 10000
    ≤ orb1.den * orb2.den

/-- The merge test used at consecutive entries `cur`, `nxt` of a
`(symmetry, energy)` sequence: same symmetry and degenerate energies. -/
def mergeable (cur nxt : String × ℚ) : Bool :=
  cur.1 == nxt.1 && is_degenerate cur.2 nxt.2

/-- One step of `_index_symmetry`'s `while` loop.  `d` is `syms_dict`
(occurrence counters, all starting at 0).  At entry `(sym, eig)` the
counter is bumped to `idx` and the label `str(idx) + sym` is assigned;
when the *next* entry has the same symmetry and a degenerate energy, it
receives the same label and the loop jumps past both (`i += 2`). -/
def index_loop (d : String → Nat) : List (String × ℚ) → List (String × ℚ)
  | [] => []
  | [(sym, eig)] =>
    let idx := d sym + 1
    [(toString idx ++ sym, eig)]
  | (sym, eig) :: (sym2, eig2) :: rest2 =>
    let idx := d sym + 1
    let d' := fun s => if s = sym then idx else d s
    let lbl := toString idx ++ sym
    if mergeable (sym, eig) (sym2, eig2) then
      (lbl, eig) :: (lbl, eig2) :: index_loop d' rest2
    else
      (lbl, eig) :: index_loop d' ((sym2, eig2) :: rest2)

/-- `_index_symmetry(syms_eigs)`.  On the empty list the Python function
raises `ValueError` at `syms, eigs = zip(*syms_eigs)` (nothing to
unpack), modelled by `none`; otherwise it relabels the list in place and
returns it. -/
def index_symmetry (syms_eigs : List (String × ℚ)) : Option (List (String × ℚ)) :=
  match syms_eigs with
  | [] => none
  | _ :: _ => some (index_loop (fun _ => 0) syms_eigs)

/-- Tokenise one symmetry line: `line.replace('(', '').replace(')', '').split()`. -/
def sym_tokens (s : String) : List String :=
  py_split (py_replace (py_replace s "(" "") ")" "")

/-- Message of the `raise` in `_get_sym`. -/
def impl_sym_msg : String :=
  "Implementation Error: Wrong position of file pointer to extract\n            the orbital symmetries."

/-- The `while` loop of `_get_sym`: consume `Occupied` / `Virtual` /
parenthesis continuation lines, accumulating symmetry tokens; stop and
rewind (keep the line at the head of the returned suffix) at the first
other line; at end of stream stop with an empty remaining suffix. -/
def get_sym_go : List String → List String × List String
  | [] => ([], [])
  | l :: r =>
    let s := py_strip l
    if py_starts s "Occupied" then
      let t := (sym_tokens s).drop 1
      let (a, r') := get_sym_go r
      (t ++ a, r')
    else if py_starts s "Virtual" then
      let t := (sym_tokens s).drop 1
      let (a, r') := get_sym_go r
      (t ++ a, r')
    else if !py_starts s "(" then ([], l :: r)
    else
      let t := sym_tokens s
      let (a, r') := get_sym_go r
      (t ++ a, r')

/-- `_get_sym(f)`: after checking that the first line starts (stripped)
with `Occupied`, run the accumulation loop; returns the symmetry tokens
together with the remaining suffix of lines. -/
def get_sym (rest : List String) : Except PyErr (List String × List String) :=
  match rest with
  | [] => .error (.exn impl_sym_msg)
  | l :: _ =>
    if !py_starts (py_strip l) "Occupied" then .error (.exn impl_sym_msg)
    else .ok (get_sym_go rest)

/-- Message of the `raise` in `_get_orb_sym`. -/
def wrong_pos_sym_msg : String :=
  "Wrong position of file pointer to extract the orbital symmetries."

/-- `_get_orb_sym(f)`: read the `Orbital symmetries:` anchor line, look at
the next line; `Occupied` starts a single restricted channel (the line is
rewound and `_get_sym` re-reads it); `Alpha Orbitals:` starts two
channels with one separator line skipped in between; any other line
(including end of stream) falls through Python's `if/elif` and returns
`None`. -/
def get_orb_sym_priv (rest : List String) :
    Except PyErr (Option (List (List String)) × List String) :=
  match rest with
  | [] => .error (.exn wrong_pos_sym_msg)
  | l :: r1 =>
    if !py_starts (py_strip l) "Orbital symmetries:" then
      .error (.exn wrong_pos_sym_msg)
    else
      match r1 with
      | [] => .ok (none, [])
      | l2 :: r2 =>
        if py_starts (py_strip l2) "Occupied" then
          match get_sym r1 with
          | .error e => .error e
          | .ok (s, r') => .ok (some [s], r')
        else if py_starts (py_strip l2) "Alpha Orbitals:" then
          match get_sym r2 with
          | .error e => .error e
          | .ok (s1, ra) =>
            match get_sym (adv ra) with
            | .error e => .error e
            | .ok (s2, rb) => .ok (some [s1, s2], rb)
        else .ok (none, r2)

/-- The four energy-line prefixes of `_get_orb_ene`. -/
def a_occ_pattern : String := "Alpha  occ. eigenvalues --"

/-- Prefix of alpha virtual eigenvalue lines. -/
def a_vir_pattern : String := "Alpha virt. eigenvalues --"

/-- Prefix of beta occupied eigenvalue lines. -/
def b_occ_pattern : String := "Beta  occ. eigenvalues --"

/-- Prefix of beta virtual eigenvalue lines. -/
def b_vir_pattern : String := "Beta virt. eigenvalues --"

/-- Message of the `raise` in `_get_orb_ene`. -/
def impl_ene_msg : String :=
  "Implementation error: wrong position of file pointer to extract\n            the orbital energies."

/-- Message of numpy's `ValueError` when a token cannot be parsed. -/
def float_err_msg : String := "could not convert string to float"

/-- Extract the float payload of an energy line: strip the prefix label
and parse the remaining whitespace-separated tokens. -/
def ene_tokens (s pat : String) : Option (List ℚ) :=
  parse_floats (py_split (py_replace s pat ""))

/-- The `while` loop of `_get_orb_ene`: consume the four kinds of
eigenvalue lines, appending their floats to the alpha (`a_eig`) or beta
(`b_eig`) accumulator; stop and rewind at the first other line. -/
def get_orb_ene_go : List String → Except PyErr (List ℚ × List ℚ × List String)
  | [] => .ok ([], [], [])
  | l :: r =>
    let s := py_strip l
    if py_starts s a_occ_pattern then
      match ene_tokens s a_occ_pattern with
      | none => .error (.exn float_err_msg)
      | some xs =>
        match get_orb_ene_go r with
        | .error e => .error e
        | .ok (a, b, r') => .ok (xs ++ a, b, r')
    else if py_starts s a_vir_pattern then
      match ene_tokens s a_vir_pattern with
      | none => .error (.exn float_err_msg)
      | some xs =>
        match get_orb_ene_go r with
        | .error e => .error e
        | .ok (a, b, r') => .ok (xs ++ a, b, r')
    else if py_starts s b_occ_pattern then
      match ene_tokens s b_occ_pattern with
      | none => .error (.exn float_err_msg)
      | some xs =>
        match get_orb_ene_go r with
        | .error e => .error e
        | .ok (a, b, r') => .ok (a, xs ++ b, r')
    else if py_starts s b_vir_pattern then
      match ene_tokens s b_vir_pattern with
      | none => .error (.exn float_err_msg)
      | some xs =>
        match get_orb_ene_go r with
        | .error e => .error e
        | .ok (a, b, r') => .ok (a, xs ++ b, r')
    else .ok ([], [], l :: r)

/-- `_get_orb_ene(f)`: check that the first line is an
`Alpha  occ. eigenvalues --` line, run the loop, and return
`[a_eig]` plus `b_eig` when the latter is nonempty. -/
def get_orb_ene (rest : List String) :
    Except PyErr (List (List ℚ) × List String) :=
  match rest with
  | [] => .error (.exn impl_ene_msg)
  | l :: _ =>
    if !py_starts (py_strip l) a_occ_pattern then .error (.exn impl_ene_msg)
    else
      match get_orb_ene_go rest with
      | .error e => .error e
      | .ok (a, b, r') => .ok (a :: (if b.isEmpty then [] else [b]), r')

/-- The scanning `while` loop of `get_orb_sym(g16_log)`: test each read
line (stripped) for the `Orbital symmetries:` anchor; on a match, rewind
and run `_get_orb_sym`, appending its result (possibly `None`) to `rst`.
The fuel argument (`length + 1` at the top call) only makes the recursion
structural: every iteration consumes at least one line. -/
def gos_loop : Nat → List String → Except PyErr (List (Option (List (List String))))
  | _, [] => .ok []
  | 0, _ :: _ => .error (.exn "insufficient fuel")
  | fuel + 1, l :: r =>
    if py_starts (py_strip l) "Orbital symmetries:" then
      match get_orb_sym_priv (l :: r) with
      | .error e => .error e
      | .ok (syms, r') =>
        match gos_loop fuel r' with
        | .error e => .error e
        | .ok rst => .ok (syms :: rst)
    else gos_loop fuel r

/-- `get_orb_sym(g16_log)`.  The loop body reads a fresh line before the
anchor test, so the very first line of the file is never tested; the
final result is `rst[-1] if rst else None` (an occurrence recorded as
`None` and an empty occurrence list both yield Python's `None`). -/
def get_orb_sym (lines : List String) : Except PyErr (Option (List (List String))) :=
  match lines with
  | [] => .ok none
  | _ :: r =>
    match gos_loop (r.length + 1) r with
    | .error e => .error e
    | .ok rst => .ok rst.getLast?.join

/-- The scanning `while` loop of `get_orb_ene_log(g16_log)`: test each
read line for the `Alpha  occ. eigenvalues --` anchor; on a match, rewind
and run `_get_orb_ene`, appending its (truthy) result to `rst`. -/
def goe_loop : Nat → List String → Except PyErr (List (List (List ℚ)))
  | _, [] => .ok []
  | 0, _ :: _ => .error (.exn "insufficient fuel")
  | fuel + 1, l :: r =>
    if py_starts (py_strip l) a_occ_pattern then
      match get_orb_ene (l :: r) with
      | .error e => .error e
      | .ok (eigs, r') =>
        match goe_loop fuel r' with
        | .error e => .error e
        | .ok rst => .ok (if eigs.isEmpty then rst else eigs :: rst)
    else goe_loop fuel r

/-- `get_orb_ene_log(g16_log)`: like `get_orb_sym`, the first file line
is never tested; returns `rst[-1] if rst else None`. -/
def get_orb_ene_log (lines : List String) : Except PyErr (Option (List (List ℚ))) :=
  match lines with
  | [] => .ok none
  | _ :: r =>
    match goe_loop (r.length + 1) r with
    | .error e => .error e
    | .ok rst => .ok rst.getLast?

/-- Message raised by `get_orb_sym_ene` when `_get_orb_sym` returned a
falsy value. -/
def no_sym_fmt_msg : String :=
  "Cannot find orbital symmetries due to format issue of log file."

/-- Message raised by `get_orb_sym_ene` when `_get_orb_ene` returned a
falsy value. -/
def no_ene_fmt_msg : String :=
  "Cannot find orbital energies due to format issue of log file."

/-- Message raised when the spin-channel counts of the used symmetry and
energy blocks differ. -/
def spin_mismatch_msg : String :=
  "Error: number of spin for orbital symmetries and energies does not match."

/-- Message raised when channel `i` has differing symmetry and energy
counts: `'... does not match for eigs{:d}.'.format(i)`. -/
def chan_mismatch_msg (i : Nat) : String :=
  "Number of orbital symmetries and energies does not match for eigs" ++ toString i ++ "."

/-- The scanning `while` loop of `get_orb_sym_ene`: on each line carrying
the `Orbital symmetries:` anchor (here the first file line *is* tested),
rewind and run `_get_orb_sym`, raise if its result is falsy, skip one
line (`f.readline()` — the energies are expected one line after the
symmetry block), run `_get_orb_ene`, raise if falsy, and record the pair
of occurrences. -/
def gose_loop : Nat → List String →
    Except PyErr (List (List (List String)) × List (List (List ℚ)))
  | _, [] => .ok ([], [])
  | 0, _ :: _ => .error (.exn "insufficient fuel")
  | fuel + 1, l :: r =>
    if py_starts (py_strip l) "Orbital symmetries:" then
      match get_orb_sym_priv (l :: r) with
      | .error e => .error e
      | .ok (none, _) => .error (.exn no_sym_fmt_msg)
      | .ok (some syms_t, r1) =>
        if syms_t.isEmpty then .error (.exn no_sym_fmt_msg)
        else
          match get_orb_ene (adv r1) with
          | .error e => .error e
          | .ok (eigs_t, r2) =>
            if eigs_t.isEmpty then .error (.exn no_ene_fmt_msg)
            else
              match gose_loop fuel r2 with
              | .error e => .error e
              | .ok (ss, es) => .ok (syms_t :: ss, eigs_t :: es)
    else gose_loop fuel r

/-- The validation-and-zip loop of `get_orb_sym_ene`
(`for i in range(len(used_eigs)): ...`): raise on the first channel whose
symmetry and energy counts differ, else zip the channel. -/
def build_records_go : List (List String) → List (List ℚ) → Nat →
    Except PyErr (List (List (String × ℚ)))
  | _, [], _ => .ok []
  | [], _ :: _, _ => .error (.exn "list index out of range")
  | s :: ss, e :: es, i =>
    if e.length ≠ s.length then .error (.exn (chan_mismatch_msg i))
    else
      match build_records_go ss es (i + 1) with
      | .error err => .error err
      | .ok rest => .ok (s.zip e :: rest)

/-- Validation of `get_orb_sym_ene` (source lines 266–275): the used
symmetry and energy blocks must have the same channel count, and each
channel the same token count; the surviving channels are zipped into
`(symmetry, energy)` records. -/
def build_records (used_syms : List (List String)) (used_eigs : List (List ℚ)) :
    Except PyErr (List (List (String × ℚ))) :=
  if used_eigs.length ≠ used_syms.length then .error (.exn spin_mismatch_msg)
  else build_records_go used_syms used_eigs 0

/-- `for i in rst: _index_symmetry(i)` — relabel every channel; an empty
channel makes `_index_symmetry` raise `ValueError` at tuple unpacking. -/
def index_channels : List (List (String × ℚ)) →
    Except PyErr (List (List (String × ℚ)))
  | [] => .ok []
  | ch :: t =>
    match index_symmetry ch with
    | none => .error (.exn "not enough values to unpack")
    | some ch' =>
      match index_channels t with
      | .error e => .error e
      | .ok t' => .ok (ch' :: t')

/-- `get_orb_sym_ene(g16_log, index_sym)`.  The scan collects every
anchored occurrence; only the *last* symmetry block and the *last* energy
block (`syms[-1]`, `eigs[-1]`) are validated, zipped and (optionally)
relabelled.  The per-channel `pd.DataFrame` with columns
`symmetry, energy` is modelled as the list of its `(symmetry, energy)`
rows. -/
def get_orb_sym_ene (lines : List String) (index_sym : Bool) :
    Except PyErr (List (List (String × ℚ))) :=
  match gose_loop (lines.length + 1) lines with
  | .error e => .error e
  | .ok (ss, es) =>
    match ss.getLast? with
    | none => .error (.exn "Cannot find orbital symmetries.")
    | some used_syms =>
      match es.getLast? with
      | none => .error (.exn "Cannot find orbital energies.")
      | some used_eigs =>
        match build_records used_syms used_eigs with
        | .error e => .error e
        | .ok rst => if index_sym then index_channels rst else .ok rst

/-! ### `qm4d/orbital.py` -/

/-- `float(line[2])`, `float(line[-1])` of `f_electron_numbers` applied
to a matched line: `line.strip().replace('=', ' ').split()` and parse the
third and last tokens. -/
def fe_num_of_line (l : String) : Except PyErr (ℚ × ℚ) :=
  let toks := py_split (py_replace (py_strip l) "=" " ")
  match toks.get? 2 with
  | none => .error (.exn "list index out of range")
  | some t2 =>
    match parse_float t2 with
    | none => .error (.exn float_err_msg)
    | some a =>
      match toks.getLast? with
      | none => .error (.exn "list index out of range")
      | some tl =>
        match parse_float tl with
        | none => .error (.exn float_err_msg)
        | some b => .ok (a, b)

/-- `f_electron_numbers(f_qm4d_out)`: scan forward for a line starting
(raw, no strip) with `Alpha electrons =`; on a match parse the alpha and
beta electron counts, leaving the cursor after the matched line; at end
of stream raise `QM4D_Output_No_Results_Found(f.name, start, ...)`.
`name` is `f_qm4d_out.name` and `start` the (inert) position recorded by
`f_qm4d_out.tell()` at entry. -/
def f_electron_numbers (name : String) : List String → Nat →
    Except PyErr ((ℚ × ℚ) × List String)
  | [], start => .error (.noResults name start "Cannot get electron number")
  | l :: r, start =>
    if py_starts l "Alpha electrons =" then
      match fe_num_of_line l with
      | .error e => .error e
      | .ok ab => .ok (ab, r)
    else f_electron_numbers name r start

/-- `is_eig_line(line)` of `f_post_losc_eig_raw_lines`: a raw line that
starts with `is=` and contains both `eig_dfa` and `eig_proj`. -/
def is_eig_line (l : String) : Bool :=
  py_starts l "is=" && py_in "eig_dfa" l && py_in "eig_proj" l

/-- The `while` loop of `f_post_losc_eig_raw_lines`: collect the stripped
eigenvalue lines; after at least one has been seen (`visited_eigs`), the
first non-eigenvalue line is rewound (kept at the head of the returned
suffix) and the loop exits; at end of stream the loop exits with an empty
suffix. -/
def post_losc_go (visited : Bool) : List String → List String × List String
  | [] => ([], [])
  | [l] =>
    (if is_eig_line l then [py_strip l] else [], [])
  | l :: l2 :: r2 =>
    let pre := if is_eig_line l then [py_strip l] else []
    let v' := if is_eig_line l then true else visited
    if v' && !is_eig_line l2 then (pre, l2 :: r2)
    else
      let (acc, r') := post_losc_go v' (l2 :: r2)
      (pre ++ acc, r')

/-- `f_post_losc_eig_raw_lines(f_qm4d_out)`: run the collection loop; an
empty collection raises `QM4D_Output_No_Results_Found(name, start, ...)`. -/
def f_post_losc_eig_raw_lines (name : String) (rest : List String) (start : Nat) :
    Except PyErr (List String × List String) :=
  match post_losc_go false rest with
  | ([], _) => .error (.noResults name start "Cannot find raw lines for post-LOSC eigenvalues")
  | (l :: ls, r') => .ok (l :: ls, r')

/-- `append_eigs(eig_lines, f)` of `f_scf_eig_raw_lines`: append stripped
lines until a line starting with `Total electron number:` (that line is
consumed) or end of stream. -/
def append_eigs : List String → List String × List String
  | [] => ([], [])
  | l :: r =>
    if !py_starts l "Total electron number:" then
      let (a, r') := append_eigs r
      (py_strip l :: a, r')
    else ([], r)

/-- The `while` loop of `f_scf_eig_raw_lines`: on a `spin=  0` header,
skip one line and collect a block; on a `spin=  1` header, skip one line,
collect a block and `break`.  The fuel argument (`length + 1` at the top
call) only makes the recursion structural. -/
def scf_go : Nat → List String → List (List String) × List String
  | _, [] => ([], [])
  | 0, r => ([], r)
  | fuel + 1, l :: r =>
    if py_starts l "Eigenvalues of spin=  0 :" then
      let (t, r1) := append_eigs (adv r)
      let (acc, r') := scf_go fuel r1
      (t :: acc, r')
    else if py_starts l "Eigenvalues of spin=  1 :" then
      let (t, r1) := append_eigs (adv r)
      ([t], r1)
    else scf_go fuel r

/-- `f_scf_eig_raw_lines(f_qm4d_out)`: run the block-collecting loop; an
empty collection raises `QM4D_Output_No_Results_Found(name, start, ...)`. -/
def f_scf_eig_raw_lines (name : String) (rest : List String) (start : Nat) :
    Except PyErr (List (List String) × List String) :=
  match scf_go (rest.length + 1) rest with
  | ([], _) => .error (.noResults name start "Find NO raw lines for SCF eigenvalues.")
  | (l :: ls, r') => .ok (l :: ls, r')

/-! ### The specification's labelling rule (for comparison with `_index_symmetry`) -/

/-- The Degeneracy-Aware Labeler exactly as the specification words it
(single left-to-right pass): at index `i`, if `i > 0` and entry `i` has
the same symmetry as entry `i-1` with energies within `1e-4`, assign the
label just assigned to `i-1` and do not touch the counter; otherwise
increment the counter for the symmetry and assign `str(counter) + sym`.
`prev` carries entry `i-1` and its assigned label. -/
def spec_index_loop (d : String → Nat) (prev : Option (String × ℚ × String)) :
    List (String × ℚ) → List (String × ℚ)
  | [] => []
  | (sym, eig) :: rest =>
    match prev with
    | some (ps, pe, pl) =>
      if mergeable (ps, pe) (sym, eig) then
        (pl, eig) :: spec_index_loop d (some (sym, eig, pl)) rest
      else
        let idx := d sym + 1
        let d' := fun s => if s = sym then idx else d s
        let lbl := toString idx ++ sym
        (lbl, eig) :: spec_index_loop d' (some (sym, eig, lbl)) rest
    | none =>
      let idx := d sym + 1
      let d' := fun s => if s = sym then idx else d s
      let lbl := toString idx ++ sym
      (lbl, eig) :: spec_index_loop d' (some (sym, eig, lbl)) rest

/-- The specification's labeler run from the initial state (all counters
zero, no previous entry). -/
def spec_index_symmetry (se : List (String × ℚ)) : List (String × ℚ) :=
  spec_index_loop (fun _ => 0) none se

/-- No three consecutive entries form a chain of two merges: rules out
runs of three or more same-symmetry entries with consecutive energies
each within tolerance. -/
def no_triple : List (String × ℚ) → Bool
  | a :: b :: c :: t => (!(mergeable a b && mergeable b c)) && no_triple (b :: c :: t)
  | _ => true

/-! ### Sanity: the cross-multiplied degeneracy test is `|o1 - o2| ≤ 1e-4` -/

/-- The difference of two rationals as a quotient of cross-multiplied
numerator and denominator. -/
theorem sub_eq_cross (o1 o2 : ℚ) :
    o1 - o2 = ((o1.num * o2.den - o2.num * o1.den : ℤ) : ℚ) / ((o1.den : ℚ) * o2.den) := by
  have d1 : ((o1.den : ℚ)) ≠ 0 := Nat.cast_ne_zero.mpr o1.den_nz
  have d2 : ((o2.den : ℚ)) ≠ 0 := Nat.cast_ne_zero.mpr o2.den_nz
  have e1 : (o1.num : ℚ) = o1 * (o1.den : ℚ) := ((div_eq_iff d1).mp (Rat.num_div_den o1)).symm ▸ rfl
  have e2 : (o2.num : ℚ) = o2 * (o2.den : ℚ) := ((div_eq_iff d2).mp (Rat.num_div_den o2)).symm ▸ rfl
  rw [eq_div_iff (mul_ne_zero d1 d2)]
  push_cast
  rw [e1, e2]
  ring

/-- `is_degenerate` decides exactly `abs(orb1 - orb2) <= 1e-4`. -/
theorem is_degenerate_iff (o1 o2 : ℚ) :
    is_degenerate o1 o2 = true ↔ |o1 - o2| ≤ 1 / 10000 := by
  have hd1 : (0 : ℚ) < (o1.den : ℚ) := by exact_mod_cast o1.pos
  have hd2 : (0 : ℚ) < (o2.den : ℚ) := by exact_mod_cast o2.pos
  rw [show is_degenerate o1 o2 =
      decide ((o1.num * (o2.den : Int) - o2.num * (o1.den : Int)).natAbs * 10000
        ≤ o1.den * o2.den) from rfl, decide_eq_true_iff]
  rw [sub_eq_cross o1 o2, abs_div, abs_of_pos (mul_pos hd1 hd2),
    div_le_div_iff₀ (mul_pos hd1 hd2) (by norm_num : (0:ℚ) < 10000)]
  rw [one_mul, ← Int.cast_abs, Int.abs_eq_natAbs]
  constructor
  · intro h
    exact_mod_cast h
  · intro h
    exact_mod_cast h

/-- `no_triple` holds of every tail. -/
theorem no_triple_tail (x : String × ℚ) (l : List (String × ℚ))
    (h : no_triple (x :: l) = true) : no_triple l = true := by
  match l with
  | [] => rfl
  | [_] => rfl
  | b :: c :: t =>
    simp only [no_triple, Bool.and_eq_true] at h
    exact h.2

/-- Wherever no two consecutive merges meet, `_index_symmetry`'s
pair-skipping loop and the specification's left-to-right rule agree,
provided the previous entry (if any) does not merge with the head. -/
theorem index_agree : ∀ (n : Nat) (rest : List (String × ℚ)) (d : String → Nat)
    (prev : Option (String × ℚ × String)),
    rest.length ≤ n → no_triple rest = true →
    (∀ ps pe pl x t, prev = some (ps, pe, pl) → rest = x :: t →
      mergeable (ps, pe) x = false) →
    index_loop d rest = spec_index_loop d prev rest := by
  intro n
  induction n with
  | zero =>
    intro rest d prev hlen _ _
    have h0 : rest = [] := List.eq_nil_of_length_eq_zero (Nat.le_zero.mp hlen)
    subst h0
    rfl
  | succ n ih =>
    intro rest d prev hlen htri hprev
    match rest with
    | [] => rfl
    | [(sym, eig)] =>
      cases prev with
      | none => rfl
      | some p =>
        obtain ⟨ps, pe, pl⟩ := p
        have hm : mergeable (ps, pe) (sym, eig) = false := hprev ps pe pl _ _ rfl rfl
        simp [index_loop, spec_index_loop, hm]
    | (sym, eig) :: (sym2, eig2) :: t2 =>
      have htri' : no_triple ((sym2, eig2) :: t2) = true := no_triple_tail _ _ htri
      have hfresh : ∀ (lbl : String),
          spec_index_loop d prev ((sym, eig) :: (sym2, eig2) :: t2)
            = (toString (d sym + 1) ++ sym, eig) ::
              spec_index_loop (fun s => if s = sym then d sym + 1 else d s)
                (some (sym, eig, toString (d sym + 1) ++ sym)) ((sym2, eig2) :: t2) := by
        intro _
        cases prev with
        | none => rfl
        | some p =>
          obtain ⟨ps, pe, pl⟩ := p
          have hm0 : mergeable (ps, pe) (sym, eig) = false := hprev ps pe pl _ _ rfl rfl
          simp [spec_index_loop, hm0]
      cases hm : mergeable (sym, eig) (sym2, eig2) with
      | true =>
        have hnm : ∀ x t', t2 = x :: t' → mergeable (sym2, eig2) x = false := by
          intro x t' ht
          subst ht
          simp only [no_triple, Bool.and_eq_true, Bool.not_eq_true'] at htri
          have := htri.1
          rw [hm, Bool.true_and] at this
          exact this
        have hlen' : t2.length ≤ n := by
          simp only [List.length_cons] at hlen
          omega
        have hrec : index_loop (fun s => if s = sym then d sym + 1 else d s) t2
            = spec_index_loop (fun s => if s = sym then d sym + 1 else d s)
                (some (sym2, eig2, toString (d sym + 1) ++ sym)) t2 := by
          apply ih t2 _ _ hlen' (no_triple_tail _ _ htri')
          intro ps pe pl x t' hp ht
          cases hp
          exact hnm x t' ht
        rw [hfresh (toString (d sym + 1) ++ sym)]
        simp only [index_loop, spec_index_loop, hm, if_true]
        simp [hrec, hm]
      | false =>
        have hlen' : ((sym2, eig2) :: t2).length ≤ n := by
          simp only [List.length_cons] at hlen ⊢
          omega
        have hrec : index_loop (fun s => if s = sym then d sym + 1 else d s) ((sym2, eig2) :: t2)
            = spec_index_loop (fun s => if s = sym then d sym + 1 else d s)
                (some (sym, eig, toString (d sym + 1) ++ sym)) ((sym2, eig2) :: t2) := by
          apply ih _ _ _ hlen' htri'
          intro ps pe pl x t' hp ht
          cases hp
          cases ht
          exact hm
        rw [hfresh (toString (d sym + 1) ++ sym)]
        simp only [index_loop, hm]
        simp [hrec]

/-- `index_loop` preserves length, order and the energy components. -/
theorem index_loop_shape : ∀ (n : Nat) (rest : List (String × ℚ)) (d : String → Nat),
    rest.length ≤ n →
    (index_loop d rest).length = rest.length ∧
    (index_loop d rest).map Prod.snd = rest.map Prod.snd := by
  intro n
  induction n with
  | zero =>
    intro rest d hlen
    have h0 : rest = [] := List.eq_nil_of_length_eq_zero (Nat.le_zero.mp hlen)
    subst h0
    exact ⟨rfl, rfl⟩
  | succ n ih =>
    intro rest d hlen
    match rest with
    | [] => exact ⟨rfl, rfl⟩
    | [(sym, eig)] => exact ⟨rfl, rfl⟩
    | (sym, eig) :: (sym2, eig2) :: t2 =>
      cases hm : mergeable (sym, eig) (sym2, eig2) with
      | true =>
        have hlen' : t2.length ≤ n := by
          simp only [List.length_cons] at hlen
          omega
        obtain ⟨h1, h2⟩ := ih t2 (fun s => if s = sym then d sym + 1 else d s) hlen'
        constructor
        · simp [index_loop, hm, h1]
        · simp [index_loop, hm, h2]
      | false =>
        have hlen' : ((sym2, eig2) :: t2).length ≤ n := by
          simp only [List.length_cons] at hlen ⊢
          omega
        obtain ⟨h1, h2⟩ := ih ((sym2, eig2) :: t2) (fun s => if s = sym then d sym + 1 else d s) hlen'
        constructor
        · simp only [index_loop, hm]
          simp [h1]
        · simp only [index_loop, hm]
          simp [h2]

/-- Whatever suffix `_get_sym`'s loop returns, its head (the next line a
caller will read) matches none of the loop's known line kinds. -/
theorem get_sym_go_boundary : ∀ (rest : List String) (b : String),
    (get_sym_go rest).2.head? = some b →
    py_starts (py_strip b) "Occupied" = false ∧
    py_starts (py_strip b) "Virtual" = false ∧
    py_starts (py_strip b) "(" = false := by
  intro rest
  induction rest with
  | nil => intro b hb; simp [get_sym_go] at hb
  | cons l r ih =>
    intro b hb
    rcases hgo : get_sym_go r with ⟨a, r'⟩
    cases h1 : py_starts (py_strip l) "Occupied" with
    | true =>
      simp only [get_sym_go, h1, if_true, hgo] at hb
      exact ih b (by rw [hgo]; exact hb)
    | false =>
      cases h2 : py_starts (py_strip l) "Virtual" with
      | true =>
        simp only [get_sym_go, h1, h2, Bool.false_eq_true, if_false, if_true, hgo] at hb
        exact ih b (by rw [hgo]; exact hb)
      | false =>
        cases h3 : py_starts (py_strip l) "(" with
        | true =>
          simp only [get_sym_go, h1, h2, h3, Bool.not_true, Bool.false_eq_true, if_false, hgo] at hb
          exact ih b (by rw [hgo]; exact hb)
        | false =>
          simp only [get_sym_go, h1, h2, h3, Bool.not_false, Bool.false_eq_true, if_false,
            if_true, List.head?] at hb
          cases hb
          exact ⟨h1, h2, h3⟩

/-- Whatever suffix `_get_orb_ene`'s loop returns on success, its head
matches none of the four eigenvalue-line kinds. -/
theorem get_orb_ene_go_boundary : ∀ (rest : List String) (a b : List ℚ)
    (r' : List String) (bl : String),
    get_orb_ene_go rest = .ok (a, b, r') → r'.head? = some bl →
    py_starts (py_strip bl) a_occ_pattern = false ∧
    py_starts (py_strip bl) a_vir_pattern = false ∧
    py_starts (py_strip bl) b_occ_pattern = false ∧
    py_starts (py_strip bl) b_vir_pattern = false := by
  intro rest
  induction rest with
  | nil =>
    intro a b r' bl hok hb
    simp only [get_orb_ene_go, Except.ok.injEq, Prod.mk.injEq] at hok
    obtain ⟨_, _, h3⟩ := hok
    subst h3
    simp at hb
  | cons l r ih =>
    intro a b r' bl hok hb
    cases h1 : py_starts (py_strip l) a_occ_pattern with
    | true =>
      rcases hene : ene_tokens (py_strip l) a_occ_pattern with _ | xs
      · simp [get_orb_ene_go, h1, hene] at hok
      · rcases hgo : get_orb_ene_go r with e | ⟨a0, b0, r0⟩
        · simp [get_orb_ene_go, h1, hene, hgo] at hok
        · simp only [get_orb_ene_go, h1, if_true, hene, hgo, Except.ok.injEq, Prod.mk.injEq] at hok
          obtain ⟨_, _, h3⟩ := hok
          subst h3
          exact ih a0 b0 r0 bl hgo hb
    | false =>
      cases h2 : py_starts (py_strip l) a_vir_pattern with
      | true =>
        rcases hene : ene_tokens (py_strip l) a_vir_pattern with _ | xs
        · simp [get_orb_ene_go, h1, h2, hene] at hok
        · rcases hgo : get_orb_ene_go r with e | ⟨a0, b0, r0⟩
          · simp [get_orb_ene_go, h1, h2, hene, hgo] at hok
          · simp only [get_orb_ene_go, h1, h2, Bool.false_eq_true, if_false, if_true, hene, hgo,
              Except.ok.injEq, Prod.mk.injEq] at hok
            obtain ⟨_, _, h3⟩ := hok
            subst h3
            exact ih a0 b0 r0 bl hgo hb
      | false =>
        cases h3 : py_starts (py_strip l) b_occ_pattern with
        | true =>
          rcases hene : ene_tokens (py_strip l) b_occ_pattern with _ | xs
          · simp [get_orb_ene_go, h1, h2, h3, hene] at hok
          · rcases hgo : get_orb_ene_go r with e | ⟨a0, b0, r0⟩
            · simp [get_orb_ene_go, h1, h2, h3, hene, hgo] at hok
            · simp only [get_orb_ene_go, h1, h2, h3, Bool.false_eq_true, if_false, if_true, hene,
                hgo, Except.ok.injEq, Prod.mk.injEq] at hok
              obtain ⟨_, _, h4⟩ := hok
              subst h4
              exact ih a0 b0 r0 bl hgo hb
        | false =>
          cases h4 : py_starts (py_strip l) b_vir_pattern with
          | true =>
            rcases hene : ene_tokens (py_strip l) b_vir_pattern with _ | xs
            · simp [get_orb_ene_go, h1, h2, h3, h4, hene] at hok
            · rcases hgo : get_orb_ene_go r with e | ⟨a0, b0, r0⟩
              · simp [get_orb_ene_go, h1, h2, h3, h4, hene, hgo] at hok
              · simp only [get_orb_ene_go, h1, h2, h3, h4, Bool.false_eq_true, if_false, if_true,
                  hene, hgo, Except.ok.injEq, Prod.mk.injEq] at hok
                obtain ⟨_, _, h5⟩ := hok
                subst h5
                exact ih a0 b0 r0 bl hgo hb
          | false =>
            simp only [get_orb_ene_go, h1, h2, h3, h4, Bool.false_eq_true, if_false,
              Except.ok.injEq, Prod.mk.injEq] at hok
            obtain ⟨_, _, h5⟩ := hok
            subst h5
            simp only [List.head?, Option.some.injEq] at hb
            subst hb
            exact ⟨h1, h2, h3, h4⟩

/-- Whatever suffix `f_post_losc_eig_raw_lines`'s loop returns, its head
is not an eigenvalue line. -/
theorem post_losc_go_boundary : ∀ (n : Nat) (rest : List String) (v : Bool) (bl : String),
    rest.length ≤ n →
    (post_losc_go v rest).2.head? = some bl → is_eig_line bl = false := by
  intro n
  induction n with
  | zero =>
    intro rest v bl hlen hb
    have h0 : rest = [] := List.eq_nil_of_length_eq_zero (Nat.le_zero.mp hlen)
    subst h0
    simp [post_losc_go] at hb
  | succ n ih =>
    intro rest v bl hlen hb
    match rest with
    | [] => simp [post_losc_go] at hb
    | [l] => simp [post_losc_go] at hb
    | l :: l2 :: r2 =>
      rcases hgo : post_losc_go (if is_eig_line l then true else v) (l2 :: r2) with ⟨acc, r'⟩
      cases hc : ((if is_eig_line l then true else v) && !is_eig_line l2) with
      | true =>
        simp only [post_losc_go, hc, if_true, List.head?, Option.some.injEq] at hb
        subst hb
        simp only [Bool.and_eq_true] at hc
        have h2 := hc.2
        cases hil : is_eig_line l2 with
        | false => rfl
        | true => rw [hil] at h2; exact absurd h2 (by decide)
      | false =>
        simp only [post_losc_go, hc, Bool.false_eq_true, if_false, hgo, List.head?] at hb
        have hlen' : (l2 :: r2).length ≤ n := by
          simp only [List.length_cons] at hlen ⊢
          omega
        exact ih (l2 :: r2) (if is_eig_line l then true else v) bl hlen' (by rw [hgo]; exact hb)

/-- When no line carries the raw `Alpha electrons =` prefix,
`f_electron_numbers` scans to end of stream and raises the structured
not-found error, with the recorded name and start position. -/
theorem fe_no_match : ∀ (rest : List String) (name : String) (start : Nat),
    (∀ l ∈ rest, py_starts l "Alpha electrons =" = false) →
    f_electron_numbers name rest start =
      .error (.noResults name start "Cannot get electron number") := by
  intro rest
  induction rest with
  | nil => intro name start _; rfl
  | cons l r ih =>
    intro name start h
    have hl : py_starts l "Alpha electrons =" = false := h l (List.mem_cons_self l r)
    simp only [f_electron_numbers, hl, Bool.false_eq_true, if_false]
    exact ih name start (fun x hx => h x (List.mem_cons_of_mem l hx))

/-- When no eigenvalue line occurs, `f_post_losc_eig_raw_lines`'s loop
collects nothing. -/
theorem post_losc_no_match : ∀ (n : Nat) (rest : List String),
    rest.length ≤ n → (∀ l ∈ rest, is_eig_line l = false) →
    (post_losc_go false rest).1 = [] := by
  intro n
  induction n with
  | zero =>
    intro rest hlen _
    have h0 : rest = [] := List.eq_nil_of_length_eq_zero (Nat.le_zero.mp hlen)
    subst h0
    rfl
  | succ n ih =>
    intro rest hlen h
    match rest with
    | [] => rfl
    | [l] =>
      have hl : is_eig_line l = false := h l (List.mem_cons_self l [])
      simp [post_losc_go, hl]
    | l :: l2 :: r2 =>
      have hl : is_eig_line l = false := h l (List.mem_cons_self l _)
      have hl2 : is_eig_line l2 = false := h l2 (List.mem_cons_of_mem l (List.mem_cons_self l2 r2))
      have hlen' : (l2 :: r2).length ≤ n := by
        simp only [List.length_cons] at hlen ⊢
        omega
      have hrec := ih (l2 :: r2) hlen' (fun x hx => h x (List.mem_cons_of_mem l hx))
      rcases hgo : post_losc_go false (l2 :: r2) with ⟨acc, r'⟩
      rw [hgo] at hrec
      simp only [post_losc_go, hl, Bool.false_eq_true, if_false, Bool.false_and, hgo]
      simpa using hrec

/-- When no spin-eigenvalue header occurs, `f_scf_eig_raw_lines`'s loop
collects nothing (whatever the fuel). -/
theorem scf_no_match : ∀ (fuel : Nat) (rest : List String),
    (∀ l ∈ rest, py_starts l "Eigenvalues of spin=  0 :" = false ∧
      py_starts l "Eigenvalues of spin=  1 :" = false) →
    (scf_go fuel rest).1 = [] := by
  intro fuel
  induction fuel with
  | zero =>
    intro rest _
    match rest with
    | [] => rfl
    | _ :: _ => rfl
  | succ fuel ih =>
    intro rest h
    match rest with
    | [] => rfl
    | l :: r =>
      obtain ⟨h0, h1⟩ := h l (List.mem_cons_self l r)
      simp only [scf_go, h0, h1, Bool.false_eq_true, if_false]
      exact ih r (fun x hx => h x (List.mem_cons_of_mem l hx))

/-- When no line carries the (stripped) `Orbital symmetries:` anchor,
`get_orb_sym`'s scanning loop collects nothing. -/
theorem gos_no_match : ∀ (fuel : Nat) (rest : List String),
    rest.length ≤ fuel →
    (∀ l ∈ rest, py_starts (py_strip l) "Orbital symmetries:" = false) →
    gos_loop fuel rest = .ok [] := by
  intro fuel
  induction fuel with
  | zero =>
    intro rest hlen _
    have h0 : rest = [] := List.eq_nil_of_length_eq_zero (Nat.le_zero.mp hlen)
    subst h0
    rfl
  | succ fuel ih =>
    intro rest hlen h
    match rest with
    | [] => rfl
    | l :: r =>
      have hl := h l (List.mem_cons_self l r)
      simp only [gos_loop, hl, Bool.false_eq_true, if_false]
      have hlen' : r.length ≤ fuel := by
        simp only [List.length_cons] at hlen
        omega
      exact ih r hlen' (fun x hx => h x (List.mem_cons_of_mem l hx))

/-- The channel-validation loop raises the per-channel structural error
whenever some channel has differing symmetry and energy counts. -/
theorem build_records_go_err : ∀ (es : List (List ℚ)) (ss : List (List String)) (i0 : Nat),
    ss.length = es.length →
    (∃ j s e, ss.get? j = some s ∧ es.get? j = some e ∧ e.length ≠ s.length) →
    ∃ k, build_records_go ss es i0 = .error (.exn (chan_mismatch_msg k)) := by
  intro es
  induction es with
  | nil =>
    intro ss i0 _ hex
    obtain ⟨j, s, e, _, he, _⟩ := hex
    simp at he
  | cons e es ih =>
    intro ss i0 hlen hex
    match ss with
    | [] => simp at hlen
    | s :: ss' =>
      by_cases hms : e.length = s.length
      · obtain ⟨j, s0, e0, hs0, he0, hne⟩ := hex
        match j with
        | 0 =>
          simp only [List.get?] at hs0 he0
          cases hs0
          cases he0
          exact absurd hms hne
        | j + 1 =>
          simp only [List.get?] at hs0 he0
          obtain ⟨k, hk⟩ := ih ss' (i0 + 1) (by simpa using hlen) ⟨j, s0, e0, hs0, he0, hne⟩
          refine ⟨k, ?_⟩
          simp only [build_records_go, hms, ne_eq, not_true_eq_false, if_false, hk]
      · refine ⟨i0, ?_⟩
        simp only [build_records_go, ne_eq, hms, not_false_eq_true, if_true]

/-! ### Concrete sources used by the claim theorems -/

/-- The specification's five-line end-to-end scenario, exactly as given. -/
def five_line_src : List String :=
  ["Orbital symmetries:",
   " Occupied  (A1) (A1) (B1)",
   " Virtual   (A1) (B2)",
   "Alpha  occ. eigenvalues --  -1.5  -1.2  -0.9",
   "Alpha virt. eigenvalues --   0.3   0.5"]

/-- The five-line scenario with one intervening line between the symmetry
block and the energy block — the shape `get_orb_sym_ene` actually
expects (it consumes one line before reading energies). -/
def six_line_src : List String :=
  ["Orbital symmetries:",
   " Occupied  (A1) (A1) (B1)",
   " Virtual   (A1) (B2)",
   "The electronic state is 1-A1.",
   "Alpha  occ. eigenvalues --  -1.5  -1.2  -0.9",
   "Alpha virt. eigenvalues --   0.3   0.5"]

/-- A log with two complete symmetry/energy sections: the first has
symmetries `A1 B1` and energies `-2.0 -1.0`, the second symmetry `B2`
and energy `-0.5`. -/
def double_section_src : List String :=
  ["junk",
   "Orbital symmetries:",
   " Occupied  (A1) (B1)",
   "mid",
   "Alpha  occ. eigenvalues --  -2.0  -1.0",
   "junk2",
   "Orbital symmetries:",
   " Occupied  (B2)",
   "mid2",
   "Alpha  occ. eigenvalues --  -0.5",
   "end"]

/-- A log whose single section has two symmetry tokens but only one
energy value. -/
def mismatch_src : List String :=
  ["Orbital symmetries:",
   " Occupied  (A1) (A1)",
   "skip",
   "Alpha  occ. eigenvalues --  -1.0"]

/-! ### Claim theorems -/

/-- C1 (counterexample): on the source consisting *exactly* of the five
lines of the claim, `get_orb_sym_ene` does not succeed — after the
symmetry block it consumes one line (the first energy line) before
calling `_get_orb_ene`, which then raises its wrong-position error. -/
theorem c1_counterexample :
    get_orb_sym_ene five_line_src true = .error (.exn impl_ene_msg) := by rfl

/-- C1 (amended): with one intervening line between the symmetry block
and the energy lines, the extraction succeeds and returns exactly one
channel of 5 labeled records with symmetries `[A1,A1,B1,A1,B2]`, energies
`[-1.5,-1.2,-0.9,0.3,0.5]` and labels `[1A1,2A1,1B1,3A1,1B2]` (the first
conjunct shows the labelled records, the second the raw symmetries before
labelling). -/
theorem c1_thm :
    get_orb_sym_ene six_line_src true =
      .ok [[("1A1", mkRat (-3) 2), ("2A1", mkRat (-6) 5), ("1B1", mkRat (-9) 10),
            ("3A1", mkRat 3 10), ("1B2", mkRat 1 2)]] ∧
    get_orb_sym_ene six_line_src false =
      .ok [[("A1", mkRat (-3) 2), ("A1", mkRat (-6) 5), ("B1", mkRat (-9) 10),
            ("A1", mkRat 3 10), ("B2", mkRat 1 2)]] :=
  ⟨by rfl, by rfl⟩

/-- C2 (counterexample): on three consecutive degenerate same-symmetry
entries the code labels them `1A,1A,2A` (it merges only disjoint adjacent
pairs), while the claim's left-to-right rule gives `1A,1A,1A` — so entry
2 does *not* receive the label of entry 1 even though
`symmetry[2] = symmetry[1]` and `|energy[2]-energy[1]| ≤ 1e-4`. -/
theorem c2_counterexample :
    index_symmetry [("A", 1), ("A", 1), ("A", 1)]
      = some [("1A", 1), ("1A", 1), ("2A", 1)] ∧
    spec_index_symmetry [("A", 1), ("A", 1), ("A", 1)]
      = [("1A", 1), ("1A", 1), ("1A", 1)] ∧
    index_symmetry [("A", 1), ("A", 1), ("A", 1)]
      ≠ some (spec_index_symmetry [("A", 1), ("A", 1), ("A", 1)]) :=
  ⟨by rfl, by rfl, by decide⟩

/-- C2 (amended): the labeler merges only disjoint adjacent pairs, so the
claim's left-to-right rule describes it exactly on every nonempty input
with no run of three consecutive entries chained by two merges (same
symmetry, consecutive energies each within `1e-4`). -/
theorem c2_thm (se : List (String × ℚ)) (h1 : se ≠ []) (h2 : no_triple se = true) :
    index_symmetry se = some (spec_index_symmetry se) := by
  match se with
  | [] => exact absurd rfl h1
  | x :: t =>
    show some (index_loop (fun _ => 0) (x :: t)) = some (spec_index_symmetry (x :: t))
    congr 1
    exact index_agree (x :: t).length (x :: t) (fun _ => 0) none (le_refl _) h2
      (fun _ _ _ _ _ hp _ => by cases hp)

/-- C2 (witness): a concrete nonempty, triple-free input on which the
code labeler and the specification's rule agree. -/
theorem c2_witness :
    index_symmetry [("A", (1 : ℚ)), ("B", (2 : ℚ))]
      = some (spec_index_symmetry [("A", (1 : ℚ)), ("B", (2 : ℚ))]) :=
  c2_thm [("A", 1), ("B", 2)] (List.cons_ne_nil _ _) (by rfl)

/-- C3: whenever the scan succeeds and the used (last) symmetry and
energy blocks disagree — different channel counts, or some channel with
differing token counts — `get_orb_sym_ene` returns one of the two
descriptive structural errors, never a truncated result. -/
theorem c3_thm (lines : List String) (flag : Bool)
    (ss : List (List (List String))) (es : List (List (List ℚ)))
    (us : List (List String)) (ue : List (List ℚ))
    (hloop : gose_loop (lines.length + 1) lines = .ok (ss, es))
    (hs : ss.getLast? = some us) (he : es.getLast? = some ue)
    (hmis : us.length ≠ ue.length ∨
      ∃ j s e, us.get? j = some s ∧ ue.get? j = some e ∧ e.length ≠ s.length) :
    ∃ msg, get_orb_sym_ene lines flag = .error (.exn msg) ∧
      (msg = spin_mismatch_msg ∨ ∃ k, msg = chan_mismatch_msg k) := by
  have hbr : ∃ msg, build_records us ue = .error (.exn msg) ∧
      (msg = spin_mismatch_msg ∨ ∃ k, msg = chan_mismatch_msg k) := by
    by_cases hlen : ue.length = us.length
    · cases hmis with
      | inl h => exact absurd hlen.symm h
      | inr hex =>
        obtain ⟨k, hk⟩ := build_records_go_err ue us 0 hlen.symm hex
        refine ⟨chan_mismatch_msg k, ?_, Or.inr ⟨k, rfl⟩⟩
        simp only [build_records, ne_eq, hlen, not_true_eq_false, if_false]
        exact hk
    · refine ⟨spin_mismatch_msg, ?_, Or.inl rfl⟩
      simp only [build_records, ne_eq, hlen, not_false_eq_true, if_true]
  obtain ⟨msg, hbr1, hbr2⟩ := hbr
  refine ⟨msg, ?_, hbr2⟩
  unfold get_orb_sym_ene
  simp [hloop, hs, he, hbr1]

/-- C3 (witness): the mismatched source (two symmetry tokens, one energy
value) makes `get_orb_sym_ene` fail with a structural error. -/
theorem c3_witness :
    ∃ msg, get_orb_sym_ene mismatch_src true = .error (.exn msg) ∧
      (msg = spin_mismatch_msg ∨ ∃ k, msg = chan_mismatch_msg k) :=
  c3_thm mismatch_src true [[["A1", "A1"]]] [[[mkRat (-1) 1]]]
    [["A1", "A1"]] [[mkRat (-1) 1]] (by rfl) (by rfl) (by rfl)
    (Or.inr ⟨0, ["A1", "A1"], [mkRat (-1) 1], by rfl, by rfl, by decide⟩)

/-- C4 (counterexample): a g16 log with no `Orbital symmetries:` anchor
makes `get_orb_sym` return the default value `None` (`.ok none`) instead
of raising a not-found error. -/
theorem c4_counterexample : get_orb_sym ["hello", "world"] = .ok none := by rfl

/-- C4 (amended): the three qm4d scanning primitives do raise the
structured not-found error carrying the source name and the starting
search offset when their pattern never occurs; the g16 `get_orb_sym`,
however, returns `None` in that situation. -/
theorem c4_thm :
    (∀ (name : String) (start : Nat) (rest : List String),
      (∀ l ∈ rest, py_starts l "Alpha electrons =" = false) →
      f_electron_numbers name rest start =
        .error (.noResults name start "Cannot get electron number")) ∧
    (∀ (name : String) (start : Nat) (rest : List String),
      (∀ l ∈ rest, is_eig_line l = false) →
      f_post_losc_eig_raw_lines name rest start =
        .error (.noResults name start "Cannot find raw lines for post-LOSC eigenvalues")) ∧
    (∀ (name : String) (start : Nat) (rest : List String),
      (∀ l ∈ rest, py_starts l "Eigenvalues of spin=  0 :" = false ∧
        py_starts l "Eigenvalues of spin=  1 :" = false) →
      f_scf_eig_raw_lines name rest start =
        .error (.noResults name start "Find NO raw lines for SCF eigenvalues.")) ∧
    (∀ lines : List String,
      (∀ l ∈ lines, py_starts (py_strip l) "Orbital symmetries:" = false) →
      get_orb_sym lines = .ok none) := by
  refine ⟨fun name start rest h => fe_no_match rest name start h, ?_, ?_, ?_⟩
  · intro name start rest h
    have h1 := post_losc_no_match rest.length rest (le_refl _) h
    rcases hgo : post_losc_go false rest with ⟨acc, r'⟩
    rw [hgo] at h1
    simp only at h1
    subst h1
    simp [f_post_losc_eig_raw_lines, hgo]
  · intro name start rest h
    have h1 := scf_no_match (rest.length + 1) rest h
    rcases hgo : scf_go (rest.length + 1) rest with ⟨acc, r'⟩
    rw [hgo] at h1
    simp only at h1
    subst h1
    simp [f_scf_eig_raw_lines, hgo]
  · intro lines h
    match lines with
    | [] => rfl
    | l0 :: r =>
      have h1 := gos_no_match (r.length + 1) r (Nat.le_succ _)
        (fun x hx => h x (List.mem_cons_of_mem l0 hx))
      simp [get_orb_sym, h1]

/-- C4 (witness): concrete single-line sources with no matching pattern. -/
theorem c4_witness :
    f_electron_numbers "f" ["abc"] 0 =
      .error (.noResults "f" 0 "Cannot get electron number") ∧
    f_post_losc_eig_raw_lines "f" ["abc"] 0 =
      .error (.noResults "f" 0 "Cannot find raw lines for post-LOSC eigenvalues") ∧
    f_scf_eig_raw_lines "f" ["abc"] 0 =
      .error (.noResults "f" 0 "Find NO raw lines for SCF eigenvalues.") ∧
    get_orb_sym ["abc"] = .ok none :=
  ⟨c4_thm.1 "f" 0 ["abc"] (by decide), c4_thm.2.1 "f" 0 ["abc"] (by decide),
   c4_thm.2.2.1 "f" 0 ["abc"] (by decide), c4_thm.2.2.2 ["abc"] (by decide)⟩

/-- C5 (counterexample): when the anchor is found but the following line
is neither `Occupied` nor `Alpha Orbitals:`, the symmetry extraction does
*not* raise — `_get_orb_sym` falls through Python's `if/elif` and returns
`None`, and `get_orb_sym` silently returns that absent result. -/
theorem c5_counterexample :
    get_orb_sym ["x", "Orbital symmetries:", "Foo bar"] = .ok none := by rfl

/-- C5 (amended): after the anchor, a following line starting with
neither `Occupied` nor `Alpha Orbitals:` makes `_get_orb_sym` return the
absent result `None` (consuming both lines); the composite
`get_orb_sym_ene` then raises its format-issue error — whose message does
not carry the offending line content. -/
theorem c5_thm :
    (∀ (a b : String) (r : List String),
      py_starts (py_strip a) "Orbital symmetries:" = true →
      py_starts (py_strip b) "Occupied" = false →
      py_starts (py_strip b) "Alpha Orbitals:" = false →
      get_orb_sym_priv (a :: b :: r) = .ok (none, r)) ∧
    get_orb_sym_ene ["Orbital symmetries:", "Foo bar"] true = .error (.exn no_sym_fmt_msg) := by
  constructor
  · intro a b r h1 h2 h3
    simp [get_orb_sym_priv, h1, h2, h3]
  · rfl

/-- C5 (witness): a concrete anchored source with a malformed follower. -/
theorem c5_witness :
    get_orb_sym_priv ["Orbital symmetries:", "Foo bar", "tail"] = .ok (none, ["tail"]) :=
  c5_thm.1 "Orbital symmetries:" "Foo bar" ["tail"] (by rfl) (by rfl) (by rfl)

/-- C6: after any of the three block extractors stops on a line matching
none of its known line kinds, the next read from the returned cursor
yields exactly that boundary line: the head of the returned suffix is a
line that matches no known kind of the respective extractor. -/
theorem c6_thm :
    (∀ (rest syms rest' : List String) (b : String),
      get_sym rest = .ok (syms, rest') → read_line rest' = some b →
      py_starts (py_strip b) "Occupied" = false ∧
      py_starts (py_strip b) "Virtual" = false ∧
      py_starts (py_strip b) "(" = false) ∧
    (∀ (rest : List String) (eigs : List (List ℚ)) (rest' : List String) (b : String),
      get_orb_ene rest = .ok (eigs, rest') → read_line rest' = some b →
      py_starts (py_strip b) a_occ_pattern = false ∧
      py_starts (py_strip b) a_vir_pattern = false ∧
      py_starts (py_strip b) b_occ_pattern = false ∧
      py_starts (py_strip b) b_vir_pattern = false) ∧
    (∀ (name : String) (start : Nat) (rest ls rest' : List String) (b : String),
      f_post_losc_eig_raw_lines name rest start = .ok (ls, rest') →
      read_line rest' = some b → is_eig_line b = false) := by
  refine ⟨?_, ?_, ?_⟩
  · intro rest syms rest' b hok hb
    match rest with
    | [] => simp [get_sym] at hok
    | l :: r =>
      cases hps : py_starts (py_strip l) "Occupied" with
      | false => simp [get_sym, hps] at hok
      | true =>
        simp only [get_sym, hps, Bool.not_true, Bool.false_eq_true, if_false,
          Except.ok.injEq] at hok
        have h2 : (get_sym_go (l :: r)).2 = rest' := by rw [hok]
        apply get_sym_go_boundary (l :: r) b
        rw [h2]
        exact hb
  · intro rest eigs rest' b hok hb
    match rest with
    | [] => simp [get_orb_ene] at hok
    | l :: r =>
      cases hps : py_starts (py_strip l) a_occ_pattern with
      | false => simp [get_orb_ene, hps] at hok
      | true =>
        rcases hgo : get_orb_ene_go (l :: r) with e | ⟨a0, b0, r0⟩
        · simp [get_orb_ene, hps, hgo] at hok
        · simp only [get_orb_ene, hps, Bool.not_true, Bool.false_eq_true, if_false, hgo,
            Except.ok.injEq, Prod.mk.injEq] at hok
          obtain ⟨_, h2⟩ := hok
          subst h2
          exact get_orb_ene_go_boundary (l :: r) a0 b0 r0 b hgo hb
  · intro name start rest ls rest' b hok hb
    rcases hgo : post_losc_go false rest with ⟨acc, r'⟩
    cases acc with
    | nil => simp [f_post_losc_eig_raw_lines, hgo] at hok
    | cons x xs =>
      simp only [f_post_losc_eig_raw_lines, hgo, Except.ok.injEq, Prod.mk.injEq] at hok
      obtain ⟨_, h2⟩ := hok
      subst h2
      apply post_losc_go_boundary rest.length rest false b (le_refl _)
      rw [hgo]
      exact hb

/-- C6 (witness): concrete runs of the three extractors, each stopping on
a visible boundary line; the boundary line matches no known kind. -/
theorem c6_witness :
    (py_starts (py_strip "XYZ") "Occupied" = false ∧
     py_starts (py_strip "XYZ") "Virtual" = false ∧
     py_starts (py_strip "XYZ") "(" = false) ∧
    (py_starts (py_strip "END") a_occ_pattern = false ∧
     py_starts (py_strip "END") a_vir_pattern = false ∧
     py_starts (py_strip "END") b_occ_pattern = false ∧
     py_starts (py_strip "END") b_vir_pattern = false) ∧
    is_eig_line "stop" = false :=
  ⟨c6_thm.1 [" Occupied  (A1)", "XYZ"] ["A1"] ["XYZ"] "XYZ" (by rfl) (by rfl),
   c6_thm.2.1 ["Alpha  occ. eigenvalues --  -1.0", "END"] [[mkRat (-1) 1]] ["END"] "END"
     (by rfl) (by rfl),
   c6_thm.2.2 "n" 0 ["is= 0 i= 0 eig_dfa= -1.0 eig_proj= -1.1 x", "stop"]
     ["is= 0 i= 0 eig_dfa= -1.0 eig_proj= -1.1 x"] ["stop"] "stop" (by rfl) (by rfl)⟩

/-- C7: for `[(A,1.0),(A,1.00005),(B,2.0)]` the labeler outputs labels
`1A, 1A, 1B`: the two `A` entries share counter value 1 because
`|1.0 - 1.00005| ≤ 1e-4` (`1.00005 = 20001/20000`). -/
theorem c7_thm :
    index_symmetry [("A", 1), ("A", mkRat 20001 20000), ("B", 2)]
      = some [("1A", 1), ("1A", mkRat 20001 20000), ("1B", 2)] := by rfl

/-- C8 (counterexample): a line whose whitespace-trimmed form starts with
`Alpha electrons =` but which carries leading whitespace is *not* matched
by `f_electron_numbers` (it tests the raw line), so the scan runs off the
end and raises not-found instead of matching. -/
theorem c8_counterexample :
    py_starts (py_strip "  Alpha electrons =   3.  Beta  elec    =   3.")
      "Alpha electrons =" = true ∧
    f_electron_numbers "out" ["  Alpha electrons =   3.  Beta  elec    =   3."] 0 =
      .error (.noResults "out" 0 "Cannot get electron number") :=
  ⟨by rfl, by rfl⟩

/-- C8 (amended): the g16 anchor scans strip each line before the prefix
test (last conjunct: an anchor with leading whitespace is matched), but
`f_electron_numbers` matches only lines that start with
`Alpha electrons =` raw — a non-matching raw line is skipped (first
conjunct) even when its trimmed form matches, and a raw-prefix line is
consumed and parsed (second and third conjuncts). -/
theorem c8_thm :
    (∀ (name : String) (start : Nat) (l : String) (r : List String),
      py_starts l "Alpha electrons =" = false →
      f_electron_numbers name (l :: r) start = f_electron_numbers name r start) ∧
    (∀ (name : String) (start : Nat) (l : String) (r : List String),
      py_starts l "Alpha electrons =" = true →
      f_electron_numbers name (l :: r) start =
        match fe_num_of_line l with
        | .error e => .error e
        | .ok ab => .ok (ab, r)) ∧
    f_electron_numbers "out" ["Alpha electrons =   3.  Beta  elec    =   3."] 0 =
      .ok ((mkRat 3 1, mkRat 3 1), []) ∧
    get_orb_sym ["x", "   Orbital symmetries:", " Occupied  (A1)", "end"] =
      .ok (some [["A1"]]) := by
  refine ⟨?_, ?_, by rfl, by rfl⟩
  · intro name start l r h
    simp [f_electron_numbers, h]
  · intro name start l r h
    simp [f_electron_numbers, h]

/-- C8 (witness): the trimmed-match-only line is skipped over in favour
of a later raw-prefix line. -/
theorem c8_witness :
    f_electron_numbers "out" ["  Alpha electrons = 1. 2.", "Alpha electrons = 1.  Beta = 2."] 0
      = f_electron_numbers "out" ["Alpha electrons = 1.  Beta = 2."] 0 :=
  c8_thm.1 "out" 0 "  Alpha electrons = 1. 2." ["Alpha electrons = 1.  Beta = 2."] (by rfl)

/-- C9 (counterexample): on the empty input list `_index_symmetry` does
not return a same-length list — it raises `ValueError` at
`syms, eigs = zip(*syms_eigs)` (modelled `none`). -/
theorem c9_counterexample : index_symmetry ([] : List (String × ℚ)) = none := by rfl

/-- C9 (amended): on every *nonempty* input the labeler returns a list of
the same length and order whose energy components equal the input
energies — only the symmetry strings are rewritten (the in-place update
of the input list is modelled by the returned list). -/
theorem c9_thm (se : List (String × ℚ)) (h : se ≠ []) :
    ∃ out, index_symmetry se = some out ∧ out.length = se.length ∧
      out.map Prod.snd = se.map Prod.snd := by
  match se with
  | [] => exact absurd rfl h
  | x :: t =>
    obtain ⟨h1, h2⟩ := index_loop_shape (x :: t).length (x :: t) (fun _ => 0) (le_refl _)
    exact ⟨index_loop (fun _ => 0) (x :: t), rfl, h1, h2⟩

/-- C9 (witness): the frame property at a concrete singleton input. -/
theorem c9_witness :
    ∃ out, index_symmetry [("A", (1 : ℚ))] = some out ∧
      out.length = [("A", (1 : ℚ))].length ∧
      out.map Prod.snd = [("A", (1 : ℚ))].map Prod.snd :=
  c9_thm [("A", 1)] (List.cons_ne_nil _ _)

/-- C10: for *every* log, the public extractors use only the last
collected occurrence.  Whenever the scanning loop of `get_orb_sym`
(resp. `get_orb_ene_log`) collects the occurrence list `occs`, the
function returns exactly the last element of `occs`; and whenever
`get_orb_sym_ene`'s scan collects the occurrence pair `(ss, es)` with
last elements `us`, `ue`, the function's result is built from `us` and
`ue` alone (validated, zipped and optionally relabelled).  The closing
conjuncts exhibit this on a log with two complete sections: each
extractor returns the second section's data (symmetry `B2`, energy
`-0.5`), not the first's (`A1 B1` / `-2.0 -1.0`). -/
theorem c10_thm :
    (∀ (l0 : String) (r : List String) (occs : List (Option (List (List String))))
      (syms : Option (List (List String))),
      gos_loop (r.length + 1) r = .ok occs → occs.getLast? = some syms →
      get_orb_sym (l0 :: r) = .ok syms) ∧
    (∀ (l0 : String) (r : List String) (occs : List (List (List ℚ)))
      (eigs : List (List ℚ)),
      goe_loop (r.length + 1) r = .ok occs → occs.getLast? = some eigs →
      get_orb_ene_log (l0 :: r) = .ok (some eigs)) ∧
    (∀ (lines : List String) (flag : Bool) (ss : List (List (List String)))
      (es : List (List (List ℚ))) (us : List (List String)) (ue : List (List ℚ)),
      gose_loop (lines.length + 1) lines = .ok (ss, es) →
      ss.getLast? = some us → es.getLast? = some ue →
      get_orb_sym_ene lines flag =
        match build_records us ue with
        | .error e => .error e
        | .ok rst => if flag then index_channels rst else .ok rst) ∧
    (get_orb_sym double_section_src = .ok (some [["B2"]]) ∧
     get_orb_ene_log double_section_src = .ok (some [[mkRat (-1) 2]]) ∧
     get_orb_sym_ene double_section_src false = .ok [[("B2", mkRat (-1) 2)]] ∧
     (some [["B2"]] : Option (List (List String))) ≠ some [["A1", "B1"]]) := by
  refine ⟨?_, ?_, ?_, by rfl, by rfl, by rfl, by decide⟩
  · intro l0 r occs syms hloop hlast
    simp only [get_orb_sym, hloop]
    rw [hlast]
    rfl
  · intro l0 r occs eigs hloop hlast
    simp only [get_orb_ene_log, hloop]
    rw [hlast]
  · intro lines flag ss es us ue hloop hs he
    unfold get_orb_sym_ene
    simp only [hloop, hs, he]

/-- C10 (witness): the universal last-occurrence theorem instantiated on
the two-section log — the scan collects both occurrences and each
extractor returns the second one. -/
theorem c10_witness :
    get_orb_sym double_section_src = .ok (some [["B2"]]) ∧
    get_orb_ene_log double_section_src = .ok (some [[mkRat (-1) 2]]) ∧
    get_orb_sym_ene double_section_src false = .ok [[("B2", mkRat (-1) 2)]] := by
  refine ⟨?_, ?_, ?_⟩
  · exact c10_thm.1 "junk"
      ["Orbital symmetries:", " Occupied  (A1) (B1)", "mid",
       "Alpha  occ. eigenvalues --  -2.0  -1.0", "junk2", "Orbital symmetries:",
       " Occupied  (B2)", "mid2", "Alpha  occ. eigenvalues --  -0.5", "end"]
      [some [["A1", "B1"]], some [["B2"]]] (some [["B2"]]) (by rfl) (by rfl)
  · exact c10_thm.2.1 "junk"
      ["Orbital symmetries:", " Occupied  (A1) (B1)", "mid",
       "Alpha  occ. eigenvalues --  -2.0  -1.0", "junk2", "Orbital symmetries:",
       " Occupied  (B2)", "mid2", "Alpha  occ. eigenvalues --  -0.5", "end"]
      [[[mkRat (-2) 1, mkRat (-1) 1]], [[mkRat (-1) 2]]] [[mkRat (-1) 2]] (by rfl) (by rfl)
  · have h := c10_thm.2.2.1 double_section_src false
      [[["A1", "B1"]], [["B2"]]] [[[mkRat (-2) 1, mkRat (-1) 1]], [[mkRat (-1) 2]]]
      [["B2"]] [[mkRat (-1) 2]] (by rfl) (by rfl) (by rfl)
    rw [h]
    rfl
